import Mathlib

/-!
Verification of the engagement-metrics and signed-media-access layer of the
photoshareBackend repository (Django app `api`): rating aggregates
(`api/models.py`), view counting and trending (`api/views.py`), and signed
image URLs (`api/serializers.py`), shallowly embedded in Lean.
-/

namespace PhotoShare

/-! ## Rating aggregates

`api/models.py`: `Rating` rows carry `(photo, user, score)` with
`unique_together = ['photo', 'user']`; `Photo.average_rating` is a
`DecimalField(max_digits=3, decimal_places=2, default=0.0)`, i.e. it stores an
exact multiple of 1/100.  We represent the stored average as an integer number
of hundredths, and model the rating rows of one photo as a list. -/

abbrev UserId := Nat
abbrev PhotoId := Nat

/-- One `Rating` row of a fixed photo: `(user, score)` (`api/models.py` lines 177-218). -/
structure RatingRec where
  user : UserId
  score : Int
deriving DecidableEq

/-- Per-photo rating state: the list of `Rating` rows attached to the photo and
the stored `Photo.average_rating` column, in hundredths. -/
structure PhotoRatings where
  ratings : List RatingRec
  average100 : Int
deriving DecidableEq

/-- Sum of the scores of a list of rating rows. -/
def sumScores (rs : List RatingRec) : Int :=
  (rs.map (fun r => r.score)).sum

/-- `sum / count` scaled to hundredths and rounded to the nearest hundredth
(the quantization performed when the `Avg('score')` result is stored in the
`decimal_places=2` column): `⌊100 * sum / count + 1/2⌋`. -/
def avgHundredths (sum : Int) (count : Nat) : Int :=
  Int.fdiv (200 * sum + count) (2 * count)

/-- `Photo.update_average_rating` (`api/models.py` lines 125-130): recomputes
the stored average from the photo's rating rows via `Avg('score')`; the SQL
aggregate is `NULL` on an empty set, and `result['average'] or 0.0` turns that
into `0`. -/
def update_average_rating (rs : List RatingRec) : Int :=
  if rs.isEmpty then 0 else avgHundredths (sumScores rs) rs.length

/-- `Rating.objects.update_or_create(user=.., photo=.., defaults={'score': ..})`
(`api/views.py` lines 361-365 and `api/serializers.py` lines 338-342): if a row
for this user exists its score is replaced, otherwise a row is appended; the
`save()` that `update_or_create` performs runs `Rating.save`
(`api/models.py` lines 216-218), which calls `self.photo.update_average_rating()`. -/
def upsertRating (s : PhotoRatings) (u : UserId) (score : Int) : PhotoRatings :=
  let rs :=
    if s.ratings.any (fun r => r.user = u) then
      s.ratings.map (fun r => if r.user = u then { r with score := score } else r)
    else
      s.ratings ++ [⟨u, score⟩]
  { ratings := rs, average100 := update_average_rating rs }

/-- `RatingViewSet.destroy` (a stock `ModelViewSet` route, `api/views.py`
lines 315-339) performs `instance.delete()`: the `Rating` row is removed.
`Rating` overrides only `save`, not `delete`, and no signal recomputes the
photo's average, so `average_rating` is left untouched. -/
def deleteRating (s : PhotoRatings) (u : UserId) : PhotoRatings :=
  { s with ratings := s.ratings.filter (fun r => r.user ≠ u) }

/-- A rating operation of the public interface: upsert
(`rate_photo` / serializer `create`) or delete (`RatingViewSet.destroy`). -/
inductive RatingOp where
  | upsert (u : UserId) (score : Int)
  | del (u : UserId)
deriving DecidableEq

/-- Apply a sequence of rating operations. -/
def applyRatingOps (s : PhotoRatings) : List RatingOp → PhotoRatings
  | [] => s
  | op :: ops =>
      match op with
      | .upsert u score => applyRatingOps (upsertRating s u score) ops
      | .del u => applyRatingOps (deleteRating s u) ops

/-- The invariant claimed by the spec: the stored `average_rating` equals the
mean of the attached rating scores rounded to 2 decimal places, and `0` when
there are no ratings. -/
def ratingInvariant (s : PhotoRatings) : Prop :=
  s.average100 =
    if s.ratings.isEmpty then 0 else avgHundredths (sumScores s.ratings) s.ratings.length

instance (s : PhotoRatings) : Decidable (ratingInvariant s) := by
  unfold ratingInvariant; infer_instance

/-- A freshly created photo: no ratings, `average_rating` defaulting to `0.0`. -/
def freshPhotoRatings : PhotoRatings := ⟨[], 0⟩

/-! ## The rating-submission entry points

`RatingViewSet.rate_photo` (`api/views.py` lines 341-371) reads `photo` and
`score` straight out of `request.data` and hands them to `update_or_create`
without running them through `RatingSerializer`; only the falsy-check
`if not photo_id or not score` guards them.  The serializer path
(`RatingViewSet.create` / `update`) runs `RatingSerializer.validate_score`
first. -/

/-- `RatingSerializer.validate_score` (`api/serializers.py` lines 326-331):
`if value < 1 or value > 5: raise ValidationError(...)`. -/
def validate_score (v : Int) : Except String Int :=
  if v < 1 || 5 < v then .error "Rating must be between 1 and 5." else .ok v

/-- `RatingSerializer.create` (`api/serializers.py` lines 333-344), reached
after field validation: validate the score, then `update_or_create`. -/
def serializerCreateRating (s : PhotoRatings) (u : UserId) (v : Int) :
    Except String PhotoRatings :=
  match validate_score v with
  | .error e => .error e
  | .ok v => .ok (upsertRating s u v)

/-- HTTP outcome of `RatingViewSet.rate_photo`. -/
inductive RateResult where
  | badRequest          -- 400: photo id or score missing or falsy
  | notFound            -- 404: photo does not exist
  | ok (created : Bool) -- 201 when a row was created, 200 when one was updated
deriving DecidableEq

/-- Python truthiness test `not score` on `request.data.get('score')`:
true when the key is absent or the value is `0`. -/
def falsyScore : Option Int → Bool
  | none => true
  | some n => n == 0

/-- `Photo.objects.get(id=photo_id)` over a table of per-photo rating states. -/
def lookupPhoto (db : List (PhotoId × PhotoRatings)) (pid : PhotoId) :
    Option PhotoRatings :=
  (db.find? (fun e => e.1 == pid)).map Prod.snd

/-- Write back the updated per-photo state. -/
def setPhoto (db : List (PhotoId × PhotoRatings)) (pid : PhotoId)
    (s : PhotoRatings) : List (PhotoId × PhotoRatings) :=
  db.map (fun e => if e.1 == pid then (pid, s) else e)

/-- `RatingViewSet.rate_photo` (`api/views.py` lines 341-371): falsy-check the
two request fields, look the photo up (404 if absent), then
`Rating.objects.update_or_create(user=.., photo=.., defaults={'score': score})`
— the score is *not* passed through `RatingSerializer.validate_score`, and
`update_or_create` saves without `full_clean`, so the model's
`MinValueValidator(1)`/`MaxValueValidator(5)` never run on this path. -/
def rate_photo (db : List (PhotoId × PhotoRatings)) (u : UserId)
    (photoId : Option PhotoId) (score : Option Int) :
    RateResult × List (PhotoId × PhotoRatings) :=
  match photoId, score with
  | some pid, some sc =>
      if falsyScore (some sc) then (.badRequest, db)
      else
        match lookupPhoto db pid with
        | none => (.notFound, db)
        | some s =>
            let created := !s.ratings.any (fun r => r.user = u)
            (.ok created, setPhoto db pid (upsertRating s u sc))
  | _, _ => (.badRequest, db)

/-! ## Claim C1 -/

theorem upsert_establishes_invariant (s : PhotoRatings) (u : UserId) (v : Int) :
    ratingInvariant (upsertRating s u v) := by
  unfold ratingInvariant upsertRating update_average_rating
  by_cases h : (if s.ratings.any (fun r => r.user = u) then
      s.ratings.map (fun r => if r.user = u then { r with score := v } else r)
    else s.ratings ++ [⟨u, v⟩]).isEmpty <;> simp_all

/-- Claim C1 is refuted as stated: starting from a fresh photo, upserting a
rating of 5 and then deleting it leaves `average_rating` at 5.00 while the
photo has no ratings, because the delete path never recomputes the average. -/
theorem c1_counterexample :
    ¬ ratingInvariant (applyRatingOps freshPhotoRatings [.upsert 1 5, .del 1]) := by
  decide

/-- Claim C1 (amended): after any sequence of rating *upserts* (create or
update via `update_or_create`) starting from a state satisfying the invariant,
the stored `average_rating` equals the mean of the scores of the attached
`Rating` rows rounded to 2 decimal places, and `0` when there are none; a
rating *deletion*, however, leaves `average_rating` unrecomputed. -/
theorem c1_rating_invariant_upserts (s : PhotoRatings) (ops : List RatingOp)
    (hs : ratingInvariant s)
    (h : ∀ op ∈ ops, ∃ u v, op = RatingOp.upsert u v) :
    ratingInvariant (applyRatingOps s ops) := by
  induction ops generalizing s with
  | nil => exact hs
  | cons op ops ih =>
      obtain ⟨u, v, rfl⟩ := h op (by simp)
      exact ih (upsertRating s u v) (upsert_establishes_invariant s u v)
        (fun o ho => h o (by simp [ho]))

/-- Concrete instance of `c1_rating_invariant_upserts`: three users rate a
fresh photo 2, 4, 4; the invariant holds and the stored average is 3.33. -/
theorem c1_rating_invariant_upserts_witness :
    ratingInvariant
        (applyRatingOps freshPhotoRatings [.upsert 1 2, .upsert 2 4, .upsert 3 4]) ∧
      (applyRatingOps freshPhotoRatings
          [.upsert 1 2, .upsert 2 4, .upsert 3 4]).average100 = 333 := by
  refine ⟨c1_rating_invariant_upserts freshPhotoRatings _ (by decide) ?_, by decide⟩
  intro op hop
  simp only [List.mem_cons, List.not_mem_nil, or_false] at hop
  rcases hop with rfl | rfl | rfl
  all_goals exact ⟨_, _, rfl⟩

/-! ## Claim C3 -/

/-- Claim C3 is contradicted by the code on the `rate_photo` path: a score of 6
is rejected by `RatingSerializer.validate_score` (used by the serializer
submission path), yet `rate_photo` — which skips the serializer and whose
`update_or_create` save never runs the model's `MinValueValidator(1)` /
`MaxValueValidator(5)` — stores a `Rating` row with score 6 and pushes the
photo's `average_rating` to 6.00. -/
theorem c3_out_of_range_score_stored :
    validate_score 6 = .error "Rating must be between 1 and 5." ∧
      rate_photo [(1, freshPhotoRatings)] 7 (some 1) (some 6) =
        (.ok true, [(1, ⟨[⟨7, 6⟩], 600⟩)]) :=
  ⟨rfl, rfl⟩

/-! ## Claim C4 -/

/-- The users carried by a list of rating rows. -/
def usersOf (rs : List RatingRec) : List UserId := rs.map (fun r => r.user)

theorem user_of_replace (r : RatingRec) (u : UserId) (v : Int) :
    (if r.user = u then { r with score := v } else r).user = r.user := by
  by_cases hr : r.user = u <;> simp [hr]

theorem usersOf_replace (rs : List RatingRec) (u : UserId) (v : Int) :
    usersOf (rs.map (fun r => if r.user = u then { r with score := v } else r)) =
      usersOf rs := by
  simp only [usersOf, List.map_map]
  congr 1
  funext r
  exact user_of_replace r u v

theorem replace_filter_eq (rs : List RatingRec) (u : UserId) (v : Int)
    (hnd : (usersOf rs).Nodup) (hmem : rs.any (fun r => r.user = u) = true) :
    (rs.map (fun r => if r.user = u then { r with score := v } else r)).filter
        (fun r => r.user = u) = [⟨u, v⟩] := by
  induction rs with
  | nil => simp at hmem
  | cons r rs ih =>
      simp only [usersOf, List.map_cons, List.nodup_cons] at hnd
      by_cases hr : r.user = u
      · have hnone : ∀ x ∈ rs, ¬ x.user = u := by
          intro x hx hxu
          exact hnd.1 (by
            rw [hr, ← hxu]
            exact List.mem_map_of_mem (fun q => q.user) hx)
        have hfr : (if r.user = u then { r with score := v } else r) =
            (⟨u, v⟩ : RatingRec) := by
          cases r
          simp_all
        have hnil :
            (rs.map (fun q => if q.user = u then { q with score := v } else q)).filter
              (fun q => q.user = u) = [] := by
          rw [List.filter_eq_nil_iff]
          intro a ha
          obtain ⟨x, hx, rfl⟩ := List.mem_map.mp ha
          simp [user_of_replace, hnone x hx]
        simp [hfr, List.filter_cons, hnil]
      · have hmem' : rs.any (fun q => q.user = u) = true := by
          simp only [List.any_cons, hr] at hmem
          simpa using hmem
        have hfr : (if r.user = u then { r with score := v } else r) = r := by
          simp [hr]
        simp only [List.map_cons, hfr, List.filter_cons]
        rw [if_neg (by simp [hr])]
        exact ih hnd.2 hmem'

theorem replace_filter_ne (rs : List RatingRec) (u : UserId) (v : Int) :
    (rs.map (fun r => if r.user = u then { r with score := v } else r)).filter
        (fun r => r.user ≠ u) = rs.filter (fun r => r.user ≠ u) := by
  induction rs with
  | nil => rfl
  | cons r rs ih =>
      simp only [List.map_cons, List.filter_cons]
      by_cases hr : r.user = u
      · have hfr : (if r.user = u then { r with score := v } else r) =
            (⟨u, v⟩ : RatingRec) := by
          cases r
          simp_all
        rw [hfr, if_neg (by simp), if_neg (by simp [hr]), ih]
      · have hfr : (if r.user = u then { r with score := v } else r) = r := by
          simp [hr]
        rw [hfr, if_pos (by simp [hr]), if_pos (by simp [hr]), ih]

/-- Behaviour of one `update_or_create` upsert under the `unique_together`
invariant: afterwards the rows for user `u` are exactly `[⟨u, v⟩]`, the rows of
other users are untouched, and uniqueness is preserved. -/
theorem upsert_spec (s : PhotoRatings) (u : UserId) (v : Int)
    (hnd : (usersOf s.ratings).Nodup) :
    (upsertRating s u v).ratings.filter (fun r => r.user = u) = [⟨u, v⟩] ∧
      (upsertRating s u v).ratings.filter (fun r => r.user ≠ u) =
        s.ratings.filter (fun r => r.user ≠ u) ∧
      (usersOf (upsertRating s u v).ratings).Nodup := by
  unfold upsertRating
  by_cases hmem : s.ratings.any (fun r => r.user = u) = true
  · simp only [hmem, if_true]
    exact ⟨replace_filter_eq s.ratings u v hnd hmem,
      replace_filter_ne s.ratings u v, by rw [usersOf_replace]; exact hnd⟩
  · have hnone : ∀ x ∈ s.ratings, ¬ x.user = u := by
      intro x hx hxu
      exact hmem (List.any_eq_true.mpr ⟨x, hx, by simp [hxu]⟩)
    rw [if_neg hmem]
    refine ⟨?_, ?_, ?_⟩
    · rw [List.filter_append]
      rw [List.filter_eq_nil_iff.mpr (by intro a ha; simp [hnone a ha])]
      simp
    · rw [List.filter_append]
      simp
    · simp only [usersOf, List.map_append, List.map_cons, List.map_nil]
      rw [List.nodup_append]
      refine ⟨hnd, List.nodup_singleton u, ?_⟩
      intro a ha hb
      simp only [List.mem_singleton] at hb
      obtain ⟨x, hx, rfl⟩ := List.mem_map.mp ha
      exact hnone x hx hb

/-- Claim C4 (confirmed): under the `unique_together ['photo', 'user']`
invariant, submitting scores 3 then 5 as user `u` leaves exactly one `Rating`
row for `u` with score 5, leaves every other user's rows untouched, and so
contributes exactly one entry of score 5 to the photo's rating count and sum. -/
theorem c4_upsert_replaces (s : PhotoRatings) (u : UserId)
    (hnd : (usersOf s.ratings).Nodup) :
    (upsertRating (upsertRating s u 3) u 5).ratings.filter (fun r => r.user = u) =
        [⟨u, 5⟩] ∧
      (upsertRating (upsertRating s u 3) u 5).ratings.filter (fun r => r.user ≠ u) =
        s.ratings.filter (fun r => r.user ≠ u) ∧
      ((upsertRating (upsertRating s u 3) u 5).ratings.filter
          (fun r => r.user = u)).length = 1 ∧
      sumScores
          ((upsertRating (upsertRating s u 3) u 5).ratings.filter
            (fun r => r.user = u)) = 5 := by
  obtain ⟨h1, h2, h3⟩ := upsert_spec s u 3 hnd
  obtain ⟨g1, g2, _⟩ := upsert_spec (upsertRating s u 3) u 5 h3
  exact ⟨g1, by rw [g2, h2], by rw [g1]; rfl, by rw [g1]; rfl⟩

/-- Concrete instance of `c4_upsert_replaces`: one pre-existing rating by
user 9; user 1 then rates 3 and re-rates 5. -/
theorem c4_upsert_replaces_witness :
    ((usersOf (⟨[⟨9, 2⟩], 200⟩ : PhotoRatings).ratings).Nodup) ∧
      (upsertRating (upsertRating ⟨[⟨9, 2⟩], 200⟩ 1 3) 1 5).ratings.filter
          (fun r => r.user = 1) = [⟨1, 5⟩] := by
  have h : (usersOf (⟨[⟨9, 2⟩], 200⟩ : PhotoRatings).ratings).Nodup := by decide
  exact ⟨h, (c4_upsert_replaces ⟨[⟨9, 2⟩], 200⟩ 1 h).1⟩

/-! ## View counting (Claim C2)

`PhotoViewSet.retrieve` (`api/views.py` lines 176-192) runs, in order:
`instance = self.get_object()` (reads the photo row, including `views_count`),
`PhotoView.objects.create(...)` (appends a view-event row), then
`instance.views_count += 1; instance.save(update_fields=['views_count'])`
(writes the incremented in-memory value back).  The read and the write are two
separate database statements with no locking and no `F('views_count') + 1`
expression, so concurrent calls interleave.  We model each in-flight call as a
three-instruction process over the shared pair
(`views_count` column, number of `PhotoView` rows). -/

/-- One in-flight `retrieve` call: `pc` 0 = about to read the row, 1 = about to
insert the `PhotoView`, 2 = about to write `views_count` back, 3 = finished;
`reg` is the in-memory copy of `views_count` held by `instance`. -/
structure ViewProc where
  pc : Nat
  reg : Nat
deriving DecidableEq

/-- Shared state: the photo's `views_count` column, the number of `PhotoView`
rows, and the in-flight calls. -/
structure ViewsState where
  views_count : Nat
  events : Nat
  procs : List ViewProc
deriving DecidableEq

/-- A call that has not executed anything yet. -/
def freshProc : ViewProc := ⟨0, 0⟩

/-- Execute the next instruction of call `i` (no-op on an absent or finished
call). -/
def stepView (s : ViewsState) (i : Nat) : ViewsState :=
  match s.procs[i]? with
  | none => s
  | some p =>
      match p.pc with
      | 0 => { s with procs := s.procs.set i ⟨1, s.views_count⟩ }
      | 1 => { s with events := s.events + 1, procs := s.procs.set i ⟨2, p.reg⟩ }
      | 2 => { s with views_count := p.reg + 1, procs := s.procs.set i ⟨3, p.reg⟩ }
      | _ => s

/-- Run an interleaving: the schedule names which call executes its next
instruction at each step. -/
def runSched (s : ViewsState) : List Nat → ViewsState
  | [] => s
  | i :: is => runSched (stepView s i) is

/-- The schedule that runs calls `m, m+1, ..., m+k-1` to completion one after
the other (sequential execution). -/
def seqSchedFrom (m : Nat) : Nat → List Nat
  | 0 => []
  | k + 1 => [m, m, m] ++ seqSchedFrom (m + 1) k

/-- Sequential execution of `k` calls. -/
def seqSched (k : Nat) : List Nat := seqSchedFrom 0 k

theorem runSched_append (a b : List Nat) (s : ViewsState) :
    runSched s (a ++ b) = runSched (runSched s a) b := by
  induction a generalizing s with
  | nil => rfl
  | cons i a ih => simp [runSched, ih]

theorem getElem?_append_cons (l₁ : List ViewProc) (p : ViewProc)
    (l₂ : List ViewProc) : (l₁ ++ p :: l₂)[l₁.length]? = some p := by
  induction l₁ with
  | nil => simp
  | cons a l ih => simpa using ih

theorem set_append_cons (l₁ : List ViewProc) (p q : ViewProc)
    (l₂ : List ViewProc) : (l₁ ++ p :: l₂).set l₁.length q = l₁ ++ q :: l₂ := by
  induction l₁ with
  | nil => rfl
  | cons a l ih => simp [List.set, ih]

theorem stepView_eq_of_get (s : ViewsState) (i : Nat) (p : ViewProc)
    (hp : s.procs[i]? = some p) :
    stepView s i =
      match p.pc with
      | 0 => { s with procs := s.procs.set i ⟨1, s.views_count⟩ }
      | 1 => { s with events := s.events + 1, procs := s.procs.set i ⟨2, p.reg⟩ }
      | 2 => { s with views_count := p.reg + 1, procs := s.procs.set i ⟨3, p.reg⟩ }
      | _ => s := by
  unfold stepView
  rw [hp]

/-- Running one call from fresh to completion, with finished calls to its left
and untouched calls to its right, appends one event and increments the counter
by one. -/
theorem runSched_triple (c e : Nat) (done rest : List ViewProc) :
    runSched ⟨c, e, done ++ freshProc :: rest⟩
        [done.length, done.length, done.length] =
      ⟨c + 1, e + 1, done ++ ⟨3, c⟩ :: rest⟩ := by
  have h0 : stepView ⟨c, e, done ++ freshProc :: rest⟩ done.length =
      ⟨c, e, done ++ ⟨1, c⟩ :: rest⟩ := by
    rw [stepView_eq_of_get _ _ freshProc (getElem?_append_cons done freshProc rest)]
    show ViewsState.mk c e ((done ++ freshProc :: rest).set done.length ⟨1, c⟩) = _
    rw [set_append_cons]
  have h1 : stepView ⟨c, e, done ++ (⟨1, c⟩ : ViewProc) :: rest⟩ done.length =
      ⟨c, e + 1, done ++ ⟨2, c⟩ :: rest⟩ := by
    rw [stepView_eq_of_get _ _ ⟨1, c⟩ (getElem?_append_cons done ⟨1, c⟩ rest)]
    show ViewsState.mk c (e + 1)
        ((done ++ (⟨1, c⟩ : ViewProc) :: rest).set done.length ⟨2, c⟩) = _
    rw [set_append_cons]
  have h2 : stepView ⟨c, e + 1, done ++ (⟨2, c⟩ : ViewProc) :: rest⟩ done.length =
      ⟨c + 1, e + 1, done ++ ⟨3, c⟩ :: rest⟩ := by
    rw [stepView_eq_of_get _ _ ⟨2, c⟩ (getElem?_append_cons done ⟨2, c⟩ rest)]
    show ViewsState.mk (c + 1) (e + 1)
        ((done ++ (⟨2, c⟩ : ViewProc) :: rest).set done.length ⟨3, c⟩) = _
    rw [set_append_cons]
  simp only [runSched]
  rw [h0, h1, h2]

theorem seq_run (k : Nat) : ∀ (c e : Nat) (done : List ViewProc),
    (∀ p ∈ done, p.pc = 3) →
    ∃ done2,
      runSched ⟨c, e, done ++ List.replicate k freshProc⟩
          (seqSchedFrom done.length k) = ⟨c + k, e + k, done2⟩ ∧
        ∀ p ∈ done2, p.pc = 3 := by
  induction k with
  | zero => exact fun c e done h => ⟨done, by simp [seqSchedFrom, runSched], h⟩
  | succ k ih =>
      intro c e done h
      rw [seqSchedFrom, List.replicate_succ, runSched_append, runSched_triple]
      have hdone3 : ∀ p ∈ done ++ [(⟨3, c⟩ : ViewProc)], p.pc = 3 := by
        intro p hp
        rcases List.mem_append.mp hp with hp | hp
        · exact h p hp
        · simp only [List.mem_singleton] at hp
          rw [hp]
      obtain ⟨done2, hrun, h3⟩ := ih (c + 1) (e + 1) (done ++ [⟨3, c⟩]) hdone3
      refine ⟨done2, ?_, h3⟩
      have hlen : (done ++ [(⟨3, c⟩ : ViewProc)]).length = done.length + 1 := by
        simp
      have hlist :
          done ++ (⟨3, c⟩ : ViewProc) :: List.replicate k freshProc =
            (done ++ [⟨3, c⟩]) ++ List.replicate k freshProc := by
        simp
      rw [← hlen, hlist, show c + (k + 1) = c + 1 + k from by omega,
        show e + (k + 1) = e + 1 + k from by omega]
      exact hrun

/-- The inductive invariant tying `views_count` to the durably recorded
`PhotoView` rows: the counter never exceeds the row count, and every in-flight
register is consistent with the rows already inserted. -/
def viewsInv (s : ViewsState) : Prop :=
  s.views_count ≤ s.events ∧
    ∀ p ∈ s.procs, (p.pc = 1 → p.reg ≤ s.events) ∧ (p.pc = 2 → p.reg + 1 ≤ s.events)

theorem stepView_inv (s : ViewsState) (i : Nat) (h : viewsInv s) :
    viewsInv (stepView s i) := by
  obtain ⟨h1, h2⟩ := h
  cases hp : s.procs[i]? with
  | none =>
      have hid : stepView s i = s := by
        unfold stepView
        rw [hp]
      rw [hid]
      exact ⟨h1, h2⟩
  | some p =>
      have hpmem : p ∈ s.procs := List.getElem?_mem hp
      rw [stepView_eq_of_get s i p hp]
      match hpc : p.pc with
      | 0 =>
          refine ⟨h1, fun q hq => ?_⟩
          rcases List.mem_or_eq_of_mem_set hq with hq | hq
          · exact h2 q hq
          · rw [hq]
            exact ⟨fun _ => h1, fun hh => by simp at hh⟩
      | 1 =>
          have hreg := (h2 p hpmem).1 hpc
          refine ⟨Nat.le_succ_of_le h1, fun q hq => ?_⟩
          rcases List.mem_or_eq_of_mem_set hq with hq | hq
          · obtain ⟨hq1, hq2⟩ := h2 q hq
            exact ⟨fun hh => Nat.le_succ_of_le (hq1 hh),
              fun hh => Nat.le_succ_of_le (hq2 hh)⟩
          · rw [hq]
            refine ⟨fun hh => by simp at hh, fun _ => ?_⟩
            show p.reg + 1 ≤ s.events + 1
            omega
      | 2 =>
          refine ⟨(h2 p hpmem).2 hpc, fun q hq => ?_⟩
          rcases List.mem_or_eq_of_mem_set hq with hq | hq
          · exact h2 q hq
          · rw [hq]
            exact ⟨fun hh => by simp at hh, fun hh => by simp at hh⟩
      | n + 3 => exact ⟨h1, h2⟩

theorem runSched_inv (sched : List Nat) (s : ViewsState) (h : viewsInv s) :
    viewsInv (runSched s sched) := by
  induction sched generalizing s with
  | nil => exact h
  | cons i is ih => exact ih (stepView s i) (stepView_inv s i h)

/-- Claim C2 is refuted as stated: two concurrent `retrieve` calls for the same
photo both run to completion under the interleaving load-load-insert-insert-
store-store, yet `views_count` rises by 1, not 2 — the non-atomic
`views_count += 1; save()` loses an update. -/
theorem c2_counterexample :
    (∀ p ∈ (runSched ⟨0, 0, List.replicate 2 freshProc⟩ [0, 1, 0, 1, 0, 1]).procs,
        p.pc = 3) ∧
      (runSched ⟨0, 0, List.replicate 2 freshProc⟩ [0, 1, 0, 1, 0, 1]).views_count = 1 ∧
      ¬ (runSched ⟨0, 0, List.replicate 2 freshProc⟩
            [0, 1, 0, 1, 0, 1]).views_count = 0 + 2 := by
  decide

/-- Claim C2 (amended): when the `N` `retrieve` calls execute sequentially
(each completes before the next starts), `views_count` rises by exactly `N`
and exactly `N` `PhotoView` rows are added; and under *every* interleaving
`views_count` never exceeds the number of recorded `PhotoView` rows.  Under
concurrent interleavings, however, the increment is a non-atomic
read-modify-write and updates can be lost. -/
theorem c2_view_count (n c e : Nat) (h : c ≤ e) :
    (∃ done2,
        runSched ⟨c, e, List.replicate n freshProc⟩ (seqSched n) =
            ⟨c + n, e + n, done2⟩ ∧
          ∀ p ∈ done2, p.pc = 3) ∧
      ∀ sched : List Nat,
        (runSched ⟨c, e, List.replicate n freshProc⟩ sched).views_count ≤
          (runSched ⟨c, e, List.replicate n freshProc⟩ sched).events := by
  constructor
  · have := seq_run n c e [] (by simp)
    simpa [seqSched] using this
  · intro sched
    have hinv : viewsInv ⟨c, e, List.replicate n freshProc⟩ := by
      refine ⟨h, fun p hp => ?_⟩
      have : p = freshProc := List.eq_of_mem_replicate hp
      rw [this]
      exact ⟨by intro h0; simp [freshProc] at h0, by intro h0; simp [freshProc] at h0⟩
    exact (runSched_inv sched _ hinv).1

/-- Concrete instance of `c2_view_count`: three sequential calls starting from
a zeroed photo end with `views_count = 3`, `events = 3`. -/
theorem c2_view_count_witness :
    (0 : Nat) ≤ 0 ∧
      (runSched ⟨0, 0, List.replicate 3 freshProc⟩ (seqSched 3)).views_count = 3 := by
  refine ⟨Nat.le_refl 0, ?_⟩
  obtain ⟨done2, hrun, _⟩ := (c2_view_count 3 0 0 (Nat.le_refl 0)).1
  rw [hrun]

/-! ## Photo visibility and trending (Claims C5, C6, C10) -/

/-- A `Photo` row, with the fields the queryset and trending logic read. -/
structure PhotoRec where
  id : PhotoId
  creator : UserId
  is_published : Bool
deriving DecidableEq

/-- A `PhotoView` row: which photo, and when (`viewed_at`, abstract ticks). -/
structure ViewEventRec where
  photo : PhotoId
  viewed_at : Int
deriving DecidableEq

/-- The photo and view tables. -/
structure Db where
  photos : List PhotoRec
  views : List ViewEventRec
deriving DecidableEq

/-- The caller of a request: anonymous, an authenticated consumer, or an
authenticated creator (`request.user.is_authenticated` / `request.user.role`). -/
inductive Requester where
  | anon
  | consumer (u : UserId)
  | creator (u : UserId)
deriving DecidableEq

/-- `PhotoViewSet.get_queryset` (`api/views.py` lines 137-160): with a
`?creator=` parameter, only that creator's published photos; otherwise an
authenticated creator sees published photos plus their own
(`Q(is_published=True) | Q(creator=request.user)`), and everyone else sees
published photos only; finally `?exclude=` drops one id. -/
def get_queryset (req : Requester) (creator_param : Option UserId)
    (exclude_param : Option PhotoId) (db : Db) : List PhotoRec :=
  let qs :=
    match creator_param with
    | some c => db.photos.filter (fun p => p.creator = c ∧ p.is_published = true)
    | none =>
        match req with
        | .creator u =>
            db.photos.filter (fun p => p.is_published = true ∨ p.creator = u)
        | _ => db.photos.filter (fun p => p.is_published = true)
  match exclude_param with
  | some x => qs.filter (fun p => p.id ≠ x)
  | none => qs

/-- The `recent_views` annotation of `trending`:
`Count('views', filter=Q(views__viewed_at__gte=week_ago))`. -/
def recent_views (db : Db) (week_ago : Int) (p : PhotoRec) : Nat :=
  (db.views.filter (fun v => v.photo = p.id ∧ week_ago ≤ v.viewed_at)).length

/-- `PhotoViewSet.trending` (`api/views.py` lines 259-275): annotates the
visible queryset (no `creator`/`exclude` parameters on this route) with
`recent_views`, orders by `-recent_views` — with no secondary sort key, so the
relative order of photos with equal counts is whatever the database returns —
and truncates to 20.  The result is modelled relationally: `out` is a possible
response iff it is the 20-prefix of some reordering of the annotated queryset
that is sorted by descending `recent_views`. -/
def isTrendingOutput (req : Requester) (db : Db) (week_ago : Int)
    (out : List (PhotoRec × Nat)) : Prop :=
  ∃ l : List (PhotoRec × Nat),
    List.Perm l
        ((get_queryset req none none db).map
          (fun p => (p, recent_views db week_ago p))) ∧
      List.Sorted (fun a b => b.2 ≤ a.2) l ∧
      out = l.take 20

/-! ## Claim C5 -/

/-- One published photo with no views at all. -/
def db5 : Db := ⟨[⟨1, 9, true⟩], []⟩

theorem db5_output :
    isTrendingOutput .anon db5 0 [((⟨1, 9, true⟩ : PhotoRec), 0)] := by
  refine ⟨[(⟨1, 9, true⟩, 0)], ?_, ?_, rfl⟩
  · decide
  · decide

/-- Claim C5 is refuted as stated: `trending` applies no
`recent_views > 0` filter, so on a database holding one published photo with
no view events the (only possible) response contains that photo with
`recent_view_count = 0`. -/
theorem c5_counterexample :
    ¬ (∀ out, isTrendingOutput .anon db5 0 out → ∀ pr ∈ out, 1 ≤ pr.2) := by
  intro h
  have := h _ db5_output (⟨1, 9, true⟩, 0) (by decide)
  exact absurd this (by decide)

/-- Claim C5 (amended): every entry of a trending response is a photo of the
caller's visible queryset paired with its exact count of view events inside
the window; but photos with zero qualifying events are *not* excluded — they
can appear (with count 0) whenever fewer than 20 photos outrank them. -/
theorem c5_trending_members (req : Requester) (db : Db) (week_ago : Int)
    (out : List (PhotoRec × Nat)) (h : isTrendingOutput req db week_ago out) :
    ∀ pr ∈ out, pr.1 ∈ get_queryset req none none db ∧
      pr.2 = recent_views db week_ago pr.1 := by
  obtain ⟨l, hperm, hsort, hout⟩ := h
  intro pr hpr
  rw [hout] at hpr
  have hl : pr ∈ l := List.mem_of_mem_take hpr
  have hm : pr ∈ (get_queryset req none none db).map
      (fun p => (p, recent_views db week_ago p)) := hperm.mem_iff.mp hl
  obtain ⟨p, hp, rfl⟩ := List.mem_map.mp hm
  exact ⟨hp, rfl⟩

/-- Concrete instance of `c5_trending_members`, on the zero-view database. -/
theorem c5_trending_members_witness :
    isTrendingOutput .anon db5 0 [((⟨1, 9, true⟩ : PhotoRec), 0)] ∧
      ((⟨1, 9, true⟩ : PhotoRec) ∈ get_queryset .anon none none db5 ∧
        (0 : Nat) = recent_views db5 0 ⟨1, 9, true⟩) :=
  ⟨db5_output,
    c5_trending_members .anon db5 0 _ db5_output (⟨1, 9, true⟩, 0) (by decide)⟩

/-! ## Claim C6 -/

/-- The ordering asserted by the spec: descending `recent_view_count` with
ties broken by ascending photo id. -/
def tieOrdered (out : List (PhotoRec × Nat)) : Prop :=
  List.Sorted (fun a b => b.2 < a.2 ∨ (a.2 = b.2 ∧ a.1.id < b.1.id)) out

/-- Two published photos with equal (zero) recent view counts. -/
def db6 : Db := ⟨[⟨1, 9, true⟩, ⟨2, 9, true⟩], []⟩

/-- Claim C6 is refuted as stated: on two photos with equal recent view
counts, both orders are admissible responses of the `ORDER BY recent_views
DESC` query — the id-descending one violates the claimed tie-break, and the
two valid outputs differ, so the ordering is not deterministic. -/
theorem c6_counterexample :
    isTrendingOutput .anon db6 0 [(⟨2, 9, true⟩, 0), (⟨1, 9, true⟩, 0)] ∧
      ¬ tieOrdered [((⟨2, 9, true⟩ : PhotoRec), 0), (⟨1, 9, true⟩, 0)] ∧
      isTrendingOutput .anon db6 0 [(⟨1, 9, true⟩, 0), (⟨2, 9, true⟩, 0)] ∧
      [((⟨2, 9, true⟩ : PhotoRec), 0), (⟨1, 9, true⟩, 0)] ≠
        [(⟨1, 9, true⟩, 0), (⟨2, 9, true⟩, 0)] := by
  refine ⟨⟨[(⟨2, 9, true⟩, 0), (⟨1, 9, true⟩, 0)], by decide, by decide, rfl⟩,
    ?_, ⟨[(⟨1, 9, true⟩, 0), (⟨2, 9, true⟩, 0)], by decide, by decide, rfl⟩, by decide⟩
  unfold tieOrdered
  decide

/-- Claim C6 (amended): a trending response has length at most 20 and is
sorted by descending recent view count; but there is no photo-id tie-break —
the relative order of photos with equal counts is database-dependent, not
deterministic. -/
theorem c6_trending_sorted (req : Requester) (db : Db) (week_ago : Int)
    (out : List (PhotoRec × Nat)) (h : isTrendingOutput req db week_ago out) :
    out.length ≤ 20 ∧ List.Sorted (fun a b => b.2 ≤ a.2) out := by
  obtain ⟨l, hperm, hsort, hout⟩ := h
  constructor
  · rw [hout]
    exact List.length_take_le 20 l
  · rw [hout]
    exact List.Pairwise.sublist (List.take_sublist 20 l) hsort

/-- Concrete instance of `c6_trending_sorted`. -/
theorem c6_trending_sorted_witness :
    isTrendingOutput .anon db6 0 [((⟨2, 9, true⟩ : PhotoRec), 0), (⟨1, 9, true⟩, 0)] ∧
      [((⟨2, 9, true⟩ : PhotoRec), 0), (⟨1, 9, true⟩, 0)].length ≤ 20 := by
  have hout : isTrendingOutput .anon db6 0
      [((⟨2, 9, true⟩ : PhotoRec), 0), (⟨1, 9, true⟩, 0)] :=
    ⟨[(⟨2, 9, true⟩, 0), (⟨1, 9, true⟩, 0)], by decide, by decide, rfl⟩
  exact ⟨hout, (c6_trending_sorted .anon db6 0 _ hout).1⟩

/-! ## Claim C10 -/

/-- One unpublished photo by creator 5, with one view event in the window. -/
def db10 : Db := ⟨[⟨1, 5, false⟩], [⟨1, 0⟩]⟩

/-- Claim C10 (confirmed): the trending candidate set depends on the caller.
An authenticated creator's queryset contains every published photo plus all of
that creator's own photos (published or not); consumers and anonymous callers
see published photos only.  On a database holding a single unpublished photo
by creator 5 with one recent view, every trending response for creator 5
contains that photo while every anonymous response is empty — identical data,
different lists. -/
theorem c10_trending_depends_on_caller :
    (∀ (db : Db) (u : UserId) (p : PhotoRec),
        p ∈ get_queryset (.creator u) none none db ↔
          p ∈ db.photos ∧ (p.is_published = true ∨ p.creator = u)) ∧
      (∀ (db : Db) (u : UserId) (p : PhotoRec),
          p ∈ get_queryset (.consumer u) none none db ↔
            p ∈ db.photos ∧ p.is_published = true) ∧
      (∀ (db : Db) (p : PhotoRec),
          p ∈ get_queryset .anon none none db ↔
            p ∈ db.photos ∧ p.is_published = true) ∧
      (∀ out, isTrendingOutput (.creator 5) db10 0 out →
        out = [(⟨1, 5, false⟩, 1)]) ∧
      (∀ out, isTrendingOutput .anon db10 0 out → out = []) := by
  refine ⟨?_, ?_, ?_, ?_, ?_⟩
  · intro db u p
    simp [get_queryset, List.mem_filter]
  · intro db u p
    simp [get_queryset, List.mem_filter]
  · intro db p
    simp [get_queryset, List.mem_filter]
  · intro out ⟨l, hperm, hsort, hout⟩
    have hmap : (get_queryset (.creator 5) none none db10).map
        (fun p => (p, recent_views db10 0 p)) = [(⟨1, 5, false⟩, 1)] := by decide
    rw [hmap] at hperm
    rw [hout, List.perm_singleton.mp hperm]
    rfl
  · intro out ⟨l, hperm, hsort, hout⟩
    have hmap : (get_queryset .anon none none db10).map
        (fun p => (p, recent_views db10 0 p)) = [] := by decide
    rw [hmap] at hperm
    rw [hout, List.perm_nil.mp hperm]
    rfl

/-- Concrete instance of `c10_trending_depends_on_caller`: the creator's
(unique) trending response on `db10` versus the anonymous one. -/
theorem c10_trending_depends_on_caller_witness :
    isTrendingOutput (Requester.creator 5) db10 0 [((⟨1, 5, false⟩ : PhotoRec), 1)] ∧
      [((⟨1, 5, false⟩ : PhotoRec), 1)] = [(⟨1, 5, false⟩, 1)] ∧
      isTrendingOutput .anon db10 0 [] ∧
      ([] : List (PhotoRec × Nat)) = [] := by
  have h1 : isTrendingOutput (Requester.creator 5) db10 0
      [((⟨1, 5, false⟩ : PhotoRec), 1)] :=
    ⟨[(⟨1, 5, false⟩, 1)], by decide, by decide, rfl⟩
  have h2 : isTrendingOutput .anon db10 0 [] := ⟨[], by decide, by decide, rfl⟩
  exact ⟨h1, c10_trending_depends_on_caller.2.2.2.1 _ h1,
    h2, c10_trending_depends_on_caller.2.2.2.2 _ h2⟩

/-! ## Signed image URLs (Claims C7, C9) -/

/-- Substring test on character lists, as Python's `in` operator on strings. -/
def hasSubstr (needle : List Char) : List Char → Bool
  | [] => needle.isEmpty
  | c :: t => needle.isPrefixOf (c :: t) || hasSubstr needle t

/-- The marker `get_image` searches for in the stored URL. -/
def blobHostMarker : List Char := "blob.core.windows.net".data

/-- A value carried in an Azure SAS query parameter: a timestamp (rendered by
the SDK as an ISO-8601 string) or an opaque string. -/
inductive SasVal where
  | time (t : Nat)
  | str (s : String)
deriving DecidableEq

/-- Modelled from the Azure SDK (the `generate_blob_sas` call of
`api/serializers.py`, the SDK itself being outside this repository): the
returned SAS token is a query string whose parameters carry the signed
permissions (`sp=r`, from `BlobSasPermissions(read=True)`), the expiry
(`se`, ISO-8601, from the `expiry` argument), and the base64 signature
(`sig`) the SDK computes over its string-to-sign; the signature is treated
as opaque here. -/
def generate_blob_sas (expiry : Nat) (sasSig : String) : List (String × SasVal) :=
  [("se", .time expiry), ("sp", .str "r"), ("sig", .str sasSig)]

/-- The serialized `image` field: JSON null, the raw storage URL, or a signed
URL `base?query`. -/
inductive ImageField where
  | null
  | raw (url : String)
  | signed (base : String) (query : List (String × SasVal))
deriving DecidableEq

/-- One hour in seconds (`timedelta(hours=1)`). -/
def oneHour : Nat := 3600

/-- `PhotoListSerializer.get_image` and `PhotoDetailSerializer.get_image`
(`api/serializers.py` lines 133-156 and 202-225, identical bodies): `None`
when the photo has no image; when `'blob.core.windows.net' in obj.image.url`,
the stored URL with the SAS token of `generate_blob_sas(..,
expiry=datetime.utcnow() + timedelta(hours=1))` appended after `?`; otherwise
the stored URL returned unchanged. -/
def get_image (image : Option String) (now : Nat) (sasSig : String) : ImageField :=
  match image with
  | none => .null
  | some url =>
      if hasSubstr blobHostMarker url.data then
        .signed url (generate_blob_sas (now + oneHour) sasSig)
      else .raw url

/-- Whether a character is a hexadecimal digit. -/
def isHexDigit (c : Char) : Bool :=
  c.isDigit || ('a' ≤ c && c ≤ 'f') || ('A' ≤ c && c ≤ 'F')

/-- The URL shape asserted by the spec:
`<base-resource-url>?expires=<unix-epoch-seconds>&sig=<hex-encoded-MAC>` —
exactly two query parameters, named `expires` (the epoch expiry) and `sig`
(a hex string). -/
def specSignedForm : ImageField → Prop
  | .signed _ q =>
      ∃ e s, q = [("expires", SasVal.time e), ("sig", SasVal.str s)] ∧
        s.data.all isHexDigit = true
  | _ => False

/-! ## Claim C9 -/

/-- Claim C9 (confirmed): when the stored URL does not contain
`blob.core.windows.net`, the API returns it unchanged — no signature, no
expiry parameter; and a photo without an image serializes to null. -/
theorem c9_non_azure_urls_raw :
    (∀ (url : String) (now : Nat) (sasSig : String),
        hasSubstr blobHostMarker url.data = false →
          get_image (some url) now sasSig = .raw url) ∧
      ∀ (now : Nat) (sasSig : String), get_image none now sasSig = .null := by
  constructor
  · intro url now sasSig h
    show (if hasSubstr blobHostMarker url.data = true then
        ImageField.signed url (generate_blob_sas (now + oneHour) sasSig)
      else ImageField.raw url) = ImageField.raw url
    rw [h]
    simp
  · intro now sasSig
    rfl

/-- Concrete instance of `c9_non_azure_urls_raw`: a Cloudinary-hosted URL. -/
theorem c9_non_azure_urls_raw_witness :
    hasSubstr blobHostMarker ("https://res.cloudinary.com/a.jpg").data = false ∧
      get_image (some "https://res.cloudinary.com/a.jpg") 0 "mac" =
        .raw "https://res.cloudinary.com/a.jpg" := by
  have h : hasSubstr blobHostMarker ("https://res.cloudinary.com/a.jpg").data =
      false := by decide
  exact ⟨h, c9_non_azure_urls_raw.1 "https://res.cloudinary.com/a.jpg" 0 "mac" h⟩

/-! ## Claim C7 -/

/-- An Azure-blob-hosted image URL. -/
def azureUrl : String := "https://acct.blob.core.windows.net/media/photos/a.jpg"

/-- Claim C7 is refuted as stated: the URL returned for an Azure-hosted image
carries the Azure SAS query (`se=<ISO-8601 expiry>`, `sp=r`,
`sig=<base64 MAC>`), not a two-parameter
`expires=<unix-epoch-seconds>&sig=<hex MAC over path and expiry>` query. -/
theorem c7_counterexample :
    ¬ specSignedForm (get_image (some azureUrl) 1700000000 "c2ln") := by
  intro h
  have hg : get_image (some azureUrl) 1700000000 "c2ln" =
      .signed azureUrl
        [("se", .time 1700003600), ("sp", .str "r"), ("sig", .str "c2ln")] := by
    decide
  rw [hg] at h
  obtain ⟨e, s, heq, _⟩ := h
  injection heq with h1 h2
  injection h1 with h3 h4
  exact absurd h3 (by decide)

/-- Claim C7 (amended): for an Azure-blob-hosted image the API returns the
stored URL with the Azure SAS query appended, whose `se` parameter carries an
expiry equal to issuance time plus exactly one hour (3600 s) and whose `sig`
parameter carries the SDK-computed signature; the query never has the spec's
`expires=<unix-epoch-seconds>&sig=<hex-encoded-MAC>` shape. -/
theorem c7_signed_url_shape (url : String) (now : Nat) (sasSig : String)
    (h : hasSubstr blobHostMarker url.data = true) :
    get_image (some url) now sasSig =
        .signed url
          [("se", .time (now + 3600)), ("sp", .str "r"), ("sig", .str sasSig)] ∧
      ¬ specSignedForm (get_image (some url) now sasSig) := by
  have hg : get_image (some url) now sasSig =
      .signed url
        [("se", .time (now + 3600)), ("sp", .str "r"), ("sig", .str sasSig)] := by
    show (if hasSubstr blobHostMarker url.data = true then
        ImageField.signed url (generate_blob_sas (now + oneHour) sasSig)
      else ImageField.raw url) = _
    rw [h]
    simp [generate_blob_sas, oneHour]
  refine ⟨hg, ?_⟩
  intro hform
  rw [hg] at hform
  obtain ⟨e, s, heq, _⟩ := hform
  injection heq with h1 h2
  injection h1 with h3 h4
  exact absurd h3 (by decide)

/-- Concrete instance of `c7_signed_url_shape`. -/
theorem c7_signed_url_shape_witness :
    hasSubstr blobHostMarker azureUrl.data = true ∧
      get_image (some azureUrl) 1700000000 "c2ln" =
        .signed azureUrl
          [("se", .time 1700003600), ("sp", .str "r"), ("sig", .str "c2ln")] := by
  have h : hasSubstr blobHostMarker azureUrl.data = true := by decide
  exact ⟨h, (c7_signed_url_shape azureUrl 1700000000 "c2ln" h).1⟩

/-! ## Signer (Claim C8)

The repository contains no verification code: `get_image` only issues Azure
SAS URLs, and verification happens inside Azure's storage service when the
URL is fetched.  The `Signer` of spec section 4.3 is therefore modelled from
the spec; its keyed MAC is abstract (the theorems hold for every MAC
function), and paths, messages and signatures are byte lists. -/

/-- Modelled from the spec: `canonicalize` combines the resource path and the
expiry unambiguously (here: the expiry prepended to the path bytes). -/
def canonicalize (p : List Nat) (e : Nat) : List Nat := e :: p

/-- Modelled from the spec: a `SignedAccessToken` (spec section 3):
`resource_path`, `expires_at`, `signature`. -/
structure SignedAccessToken where
  resource_path : List Nat
  expires_at : Nat
  signature : List Nat
deriving DecidableEq

/-- Modelled from the spec: `Issue(resource_path, ttl)` returns a token with
`expires_at = now + ttl` and
`signature = MAC(secret, canonicalize(resource_path, expires_at))`. -/
def issueToken (mac : List Nat → List Nat) (p : List Nat) (ttl now : Nat) :
    SignedAccessToken :=
  ⟨p, now + ttl, mac (canonicalize p (now + ttl))⟩

/-- Result of `Verify`. -/
inductive VerifyResult where
  | valid
  | expired
  | invalid
deriving DecidableEq

/-- Modelled from the spec: `Verify(resource_path, expires_at, signature)`
returns `Expired` when `now > expires_at` (checked even if the signature is
otherwise correct), `Invalid` when the recomputed MAC differs from the
supplied signature, and `Valid` otherwise. -/
def verifyToken (mac : List Nat → List Nat) (p : List Nat) (e : Nat)
    (sig : List Nat) (now : Nat) : VerifyResult :=
  if e < now then .expired
  else if sig = mac (canonicalize p e) then .valid
  else .invalid

/-- Flip bit `i` of a byte list (byte `i / 8`, bit `i % 8`). -/
def flipBit (bs : List Nat) (i : Nat) : List Nat :=
  bs.set (i / 8) (bs.getD (i / 8) 0 ^^^ 2 ^ (i % 8))

theorem xor_pow_ne (x k : Nat) : x ^^^ 2 ^ k ≠ x := by
  intro h
  have hz : 2 ^ k = 0 := by
    calc 2 ^ k = x ^^^ (x ^^^ 2 ^ k) := by
          rw [← Nat.xor_assoc, Nat.xor_self, Nat.zero_xor]
      _ = x ^^^ x := by rw [h]
      _ = 0 := Nat.xor_self x
  exact absurd hz (pow_ne_zero k (by omega))

theorem flipBit_ne (bs : List Nat) (i : Nat) (h : i < 8 * bs.length) :
    flipBit bs i ≠ bs := by
  intro heq
  have hj : i / 8 < bs.length := by omega
  have hget := congrArg (fun l => l[i / 8]?) heq
  simp only [flipBit] at hget
  rw [List.getElem?_set_self hj, List.getElem?_eq_getElem hj] at hget
  injection hget with hv
  rw [List.getD_eq_getElem bs 0 hj] at hv
  exact xor_pow_ne (bs[i / 8]) (i % 8) hv

/-- Claim C8 (confirmed against the spec-modelled Signer, for every keyed MAC
function): verifying a freshly issued token before its expiry returns
`Valid`; verifying with any single bit of the issued signature flipped (the
bit index lying within the signature) before expiry returns `Invalid`; and
once the expiry has passed, verification returns `Expired` for every supplied
signature — neither `Valid` nor `Invalid`. -/
theorem c8_signer_roundtrip (mac : List Nat → List Nat) (p : List Nat)
    (ttl now now2 : Nat) :
    (now2 ≤ (issueToken mac p ttl now).expires_at →
        verifyToken mac p (issueToken mac p ttl now).expires_at
          (issueToken mac p ttl now).signature now2 = .valid) ∧
      (∀ i, i < 8 * (issueToken mac p ttl now).signature.length →
        now2 ≤ (issueToken mac p ttl now).expires_at →
        verifyToken mac p (issueToken mac p ttl now).expires_at
          (flipBit (issueToken mac p ttl now).signature i) now2 = .invalid) ∧
      ((issueToken mac p ttl now).expires_at < now2 →
        ∀ sig, verifyToken mac p (issueToken mac p ttl now).expires_at sig now2 =
          .expired) := by
  refine ⟨?_, ?_, ?_⟩
  · intro hle
    simp only [issueToken] at hle ⊢
    unfold verifyToken
    rw [if_neg (by omega), if_pos rfl]
  · intro i hi hle
    simp only [issueToken] at hi hle ⊢
    unfold verifyToken
    rw [if_neg (by omega), if_neg (flipBit_ne _ i hi)]
  · intro hlt sig
    simp only [issueToken] at hlt ⊢
    unfold verifyToken
    rw [if_pos hlt]

/-- Concrete instance of `c8_signer_roundtrip`, with the MAC instantiated as
prepending a byte: path `[7]`, ttl 10, issued at 0, verified at 5, bit 3
flipped, and late verification at 11. -/
theorem c8_signer_roundtrip_witness :
    ((5 : Nat) ≤ (issueToken (fun m => 0 :: m) [7] 10 0).expires_at ∧
        verifyToken (fun m => 0 :: m) [7]
          (issueToken (fun m => 0 :: m) [7] 10 0).expires_at
          (issueToken (fun m => 0 :: m) [7] 10 0).signature 5 = .valid) ∧
      ((3 : Nat) < 8 * (issueToken (fun m => 0 :: m) [7] 10 0).signature.length ∧
        verifyToken (fun m => 0 :: m) [7]
          (issueToken (fun m => 0 :: m) [7] 10 0).expires_at
          (flipBit (issueToken (fun m => 0 :: m) [7] 10 0).signature 3) 5 =
            .invalid) ∧
      ((issueToken (fun m => 0 :: m) [7] 10 0).expires_at < 11 ∧
        verifyToken (fun m => 0 :: m) [7]
          (issueToken (fun m => 0 :: m) [7] 10 0).expires_at
          (issueToken (fun m => 0 :: m) [7] 10 0).signature 11 = .expired) := by
  refine ⟨⟨by decide, (c8_signer_roundtrip (fun m => 0 :: m) [7] 10 0 5).1 (by decide)⟩,
    ⟨by decide, (c8_signer_roundtrip (fun m => 0 :: m) [7] 10 0 5).2.1 3 (by decide)
      (by decide)⟩,
    ⟨by decide, (c8_signer_roundtrip (fun m => 0 :: m) [7] 10 0 11).2.2 (by decide) _⟩⟩

end PhotoShare
